import Mathlib

/-!
Shallow embedding of the exam-platform session lifecycle engine:
the exam timer (`useExamTimer`), the anti-cheat warning counter
(`useAntiCheat`), the session create-or-resume and submit transitions
(`TakeExam`), the autosave/reload round trip, and the scoring engine
(`GradeExam` / `ViewResult` in `CreateExam.tsx`).

Conventions: wall-clock times are integers in milliseconds; JavaScript
nullable strings (`string | null | undefined`) are `Option String`, with
JS truthiness (`null`, `undefined` and `""` are falsy) modelled by
`strTruthy`; numbers that enter rational arithmetic (points, grades,
percentages) are `ℚ`.
-/

namespace ExamPlatform

/-- JS truthiness of a nullable string: `null`/`undefined` and `""` are falsy. -/
def strTruthy : Option String → Bool
  | none => false
  | some s => decide (s ≠ "")

/-- Value of a nullable string at use sites guarded by truthiness
(JS optional chaining never reaches the `none` case there). -/
def jsStr : Option String → String
  | some s => s
  | none => ""

/-- Models the JS idiom `x || null`: a falsy string collapses to `null`. -/
def jsOrNull (o : Option String) : Option String :=
  if strTruthy o then o else none

/-- Models the JS idiom `x || undefined`: a falsy string collapses to `undefined`. -/
def jsOrUndef (o : Option String) : Option String :=
  if strTruthy o then o else none

/-- Models `String.prototype.trim`: strip whitespace from both ends
(space, tab, CR, LF — the whitespace characters occurring in the data). -/
def jsTrim (s : String) : String :=
  ⟨((s.data.dropWhile Char.isWhitespace).reverse.dropWhile Char.isWhitespace).reverse⟩

/-- Models `String.prototype.toLowerCase` character by character. -/
def jsToLower (s : String) : String :=
  ⟨s.data.map Char.toLower⟩

/-! ## Clock/Timer engine — `useExamTimer` in `src/hooks/useExamTimer.ts`

`calculateTimeRemaining`: `endTime = startTime + durationMinutes*60*1000`;
`remaining = Math.max(0, endTime - now)`; result `Math.floor(remaining / 1000)`.
`Int.toNat` is `max 0` composed with the cast, and `Nat` division is the floor. -/

/-- Remaining whole seconds computed by `useExamTimer` (times in ms). -/
def calculateTimeRemaining (startedAt : ℤ) (durationMinutes : ℕ) (now : ℤ) : ℕ :=
  (startedAt + (durationMinutes : ℤ) * 60 * 1000 - now).toNat / 1000

/-- The mutable ref `hasCalledTimeUp` guarding the expiry callback. -/
structure TimerState where
  hasCalledTimeUp : Bool
deriving DecidableEq

/-- One interval tick of `useExamTimer`: if the observed remaining time is
`<= 0` and the guard ref is unset, set the ref and fire `onTimeUp`
(the source additionally clears the interval; the guard alone already
makes every later tick a no-op). Returns the new state and whether
`onTimeUp` fired on this tick. -/
def timerTick (st : TimerState) (remaining : ℕ) : TimerState × Bool :=
  if remaining ≤ 0 ∧ st.hasCalledTimeUp = false then
    (⟨true⟩, true)
  else
    (st, false)

/-- Number of `onTimeUp` invocations over a sequence of observed
remaining-time values. -/
def timerFireCount (st : TimerState) : List ℕ → ℕ
  | [] => 0
  | r :: rs => (if (timerTick st r).2 then 1 else 0) + timerFireCount (timerTick st r).1 rs

/-! ## Cheat detector — `useAntiCheat` in `src/hooks/useAntiCheat.ts` -/

/-- The two focus-loss signals the detector subscribes to. -/
inductive FocusEvent
  | blur
  | visibilityChange (hidden : Bool)
deriving DecidableEq

/-- Whether an event increments the counter: `handleBlur` always does,
`handleVisibilityChange` only when `document.hidden`. -/
def countsAsFocusLoss : FocusEvent → Bool
  | .blur => true
  | .visibilityChange hidden => hidden

/-- The state held by `useAntiCheat`: the `warningCount` React state and the
`hasReachedMaxWarnings` ref. -/
structure AntiCheatState where
  warningCount : ℕ
  hasReachedMaxWarnings : Bool
deriving DecidableEq

/-- Callbacks fired while handling one event: `onWarning(newCount)` and
`onMaxWarningsReached`. -/
structure AntiCheatSignals where
  warned : Option ℕ
  maxReached : Bool
deriving DecidableEq

/-- One event handled by `useAntiCheat`: if the event counts as a focus loss
and the max-warnings guard ref is unset, increment the count, fire
`onWarning(newCount)`, and when `newCount >= maxWarnings` set the guard and
fire `onMaxWarningsReached`. -/
def antiCheatStep (maxWarnings : ℕ) (st : AntiCheatState) (e : FocusEvent) :
    AntiCheatState × AntiCheatSignals :=
  if countsAsFocusLoss e = true ∧ st.hasReachedMaxWarnings = false then
    let newCount := st.warningCount + 1
    if maxWarnings ≤ newCount then
      (⟨newCount, true⟩, ⟨some newCount, true⟩)
    else
      (⟨newCount, st.hasReachedMaxWarnings⟩, ⟨some newCount, false⟩)
  else
    (st, ⟨none, false⟩)

/-- The state after the detector has observed a sequence of events. -/
def antiCheatRun (maxWarnings : ℕ) (st : AntiCheatState) : List FocusEvent → AntiCheatState
  | [] => st
  | e :: es => antiCheatRun maxWarnings (antiCheatStep maxWarnings st e).1 es

/-- Number of `onMaxWarningsReached` invocations over a sequence of events. -/
def antiCheatMaxFires (maxWarnings : ℕ) (st : AntiCheatState) : List FocusEvent → ℕ
  | [] => 0
  | e :: es =>
    (if (antiCheatStep maxWarnings st e).2.maxReached then 1 else 0) +
      antiCheatMaxFires maxWarnings (antiCheatStep maxWarnings st e).1 es

/-- Initial detector state: `warningCount = 0`, guard ref unset. -/
def initAntiCheat : AntiCheatState := ⟨0, false⟩

/-! ## Session state machine — `TakeExam` in `src/pages/TakeExam.tsx` -/

/-- Session statuses occurring in the source: `in_progress` at creation,
`submitted` / `auto_submitted` written by `submitExam`, `blocked` declared by
the data model, `graded` written by `handleSubmitGrading`. -/
inductive SessionStatus
  | in_progress
  | submitted
  | auto_submitted
  | blocked
  | graded
deriving DecidableEq

/-- The `exam_sessions` row fields the session engine reads and writes. -/
structure SessionRow where
  exam_id : String
  student_id : String
  started_at : ℤ
  submitted_at : Option ℤ
  status : SessionStatus
  warning_count : ℕ
  is_locked : Bool
deriving DecidableEq

/-- The single-row update performed by `submitExam` on `exam_sessions`
(`handleMaxWarnings` issues the identical payload with `auto_submitted`):
`status := autoSubmit ? 'auto_submitted' : 'submitted'`,
`submitted_at := now`, `is_locked := true`. The update is unconditional —
it does not check the current status of the row. -/
def submitSessionUpdate (autoSubmit : Bool) (now : ℤ) (s : SessionRow) : SessionRow :=
  { s with
    status := if autoSubmit then .auto_submitted else .submitted
    submitted_at := some now
    is_locked := true }

/-- A terminal status per the data model: any status other than `in_progress`
(the spec lists `submitted`, `auto_submitted`, `blocked` as the terminal
states reachable during an attempt, and `graded` as the terminal marker
written by grading). -/
def isTerminalStatus (st : SessionStatus) : Bool :=
  decide (st ≠ .in_progress)

/-- Result of entering an exam in `loadExam`: either the student is
redirected away (`window.location.href = '/'`) or a session is entered. -/
inductive LoadOutcome
  | redirect
  | enter (session : SessionRow)
deriving DecidableEq

/-- A fresh session as inserted by `loadExam`; the insert carries
`exam_id`, `student_id` and `status := 'in_progress'`.
Modelled from the spec: `started_at` and the remaining columns are not in
the insert payload and are assigned by the data store — the spec fixes
`started_at` as server-assigned to the creation time, `submitted_at` null,
`warning_count` 0 and `is_locked` false until the session leaves
`in_progress`. -/
def newSessionRow (examId studentId : String) (now : ℤ) : SessionRow :=
  { exam_id := examId
    student_id := studentId
    started_at := now
    submitted_at := none
    status := .in_progress
    warning_count := 0
    is_locked := false }

/-- The create-or-resume decision of `loadExam`: when a session exists for
(exam, student) and `is_locked || status === 'submitted' ||
status === 'auto_submitted'`, redirect away; otherwise enter the existing
session unchanged; when none exists, insert a fresh `in_progress` session. -/
def createOrResume (existing : Option SessionRow) (examId studentId : String)
    (now : ℤ) : LoadOutcome :=
  match existing with
  | some s =>
    if s.is_locked = true ∨ s.status = .submitted ∨ s.status = .auto_submitted then
      .redirect
    else
      .enter s
  | none => .enter (newSessionRow examId studentId now)

/-- How the awaited `supabase ... update` of the terminal lock can end:
it resolves cleanly, resolves with an in-band error object (the supabase
client reports query and network failures in the `error` field of the
resolved value, which `submitExam` never reads), or rejects (an exception
reaching the `try/catch`). -/
inductive LockWriteOutcome
  | ok
  | errorResult
  | rejected
deriving DecidableEq

/-- Observable outcome of one `submitExam` call: the persisted session row,
whether the student was navigated away (`window.location.href = '/'`),
the `submitting` flag at the end, whether any user-visible error surface
was shown (none exists in `submitExam`), and whether `console.error` ran. -/
structure SubmitOutcome where
  session : SessionRow
  navigatedAway : Bool
  submitting : Bool
  errorShownToUser : Bool
  consoleErrorLogged : Bool
deriving DecidableEq

/-- Control flow of `submitExam`: `setSubmitting(true)`, flush autosave,
issue the terminal update, then navigate to `/`. The update result is
never inspected, so an in-band error object still falls through to the
navigation; only a rejected promise reaches the `catch`, which logs to the
console and resets `submitting`. -/
def submitExam (autoSubmit : Bool) (now : ℤ) (outcome : LockWriteOutcome)
    (s : SessionRow) : SubmitOutcome :=
  match outcome with
  | .ok =>
    { session := submitSessionUpdate autoSubmit now s
      navigatedAway := true
      submitting := true
      errorShownToUser := false
      consoleErrorLogged := false }
  | .errorResult =>
    { session := s
      navigatedAway := true
      submitting := true
      errorShownToUser := false
      consoleErrorLogged := false }
  | .rejected =>
    { session := s
      navigatedAway := false
      submitting := false
      errorShownToUser := false
      consoleErrorLogged := true }

/-- A concrete in-progress session used by the closed counterexamples. -/
def exSession0 : SessionRow :=
  { exam_id := "exam-1"
    student_id := "student-1"
    started_at := 0
    submitted_at := none
    status := .in_progress
    warning_count := 0
    is_locked := false }

/-! ## Scoring engine — `GradeExam` / `ViewResult` in `src/pages/CreateExam.tsx` -/

/-- Question types of the data model. -/
inductive QuestionType
  | mcq
  | true_false
  | short_answer
  | long_answer
deriving DecidableEq

/-- A `question_options` row. -/
structure QuestionOption where
  id : String
  option_text : String
  is_correct : Bool
  order_number : ℕ
deriving DecidableEq

/-- A `questions` row with its nested options (as loaded by `GradeExam`). -/
structure Question where
  id : String
  question_type : QuestionType
  question_text : String
  points : ℚ
  order_number : ℕ
  correct_answer : Option String
  question_options : List QuestionOption
deriving DecidableEq

/-- A `student_answers` row as read by the grading screen. -/
structure StudentAnswer where
  id : String
  question_id : String
  answer_text : Option String
  selected_option_id : Option String
  points_earned : Option ℚ
deriving DecidableEq

/-- The option lookup `question.question_options.find(opt => opt.id === ...)`. -/
def findOption (q : Question) (optionId : String) : Option QuestionOption :=
  q.question_options.find? (fun opt => opt.id == optionId)

/-- One question of `handleAutoGrade`: the branch chain over the question
type. For `mcq` / `true_false` with a truthy `selected_option_id`, look the
option up and award `question.points` iff `selectedOption?.is_correct` is
truthy. For `short_answer` / `long_answer` with a truthy `answer_text`,
compare `answer_text.trim().toLowerCase()` against
`correct_answer.trim().toLowerCase()` — but only when `correct_answer` is
truthy and `answer_text.trim()` is truthy — awarding full points on
equality and 0 otherwise. Every other case yields 0. -/
def autoGradeQuestion (q : Question) (answer : Option StudentAnswer) : ℚ :=
  let selected := answer.bind (·.selected_option_id)
  let answerText := answer.bind (·.answer_text)
  if q.question_type = .mcq ∧ strTruthy selected = true then
    let selectedOption := findOption q (jsStr selected)
    if (selectedOption.map (·.is_correct)).getD false = true then q.points else 0
  else if q.question_type = .true_false ∧ strTruthy selected = true then
    let selectedOption := findOption q (jsStr selected)
    if (selectedOption.map (·.is_correct)).getD false = true then q.points else 0
  else if (q.question_type = .short_answer ∨ q.question_type = .long_answer) ∧
      strTruthy answerText = true then
    if strTruthy q.correct_answer = true ∧ jsTrim (jsStr answerText) ≠ "" then
      let studentAnswer := jsToLower (jsTrim (jsStr answerText))
      let modelAnswer := jsToLower (jsTrim (jsStr q.correct_answer))
      if studentAnswer = modelAnswer then q.points else 0
    else 0
  else 0

/-- The `is_correct` value written by `handleSubmitGrading` for an answer:
`null` unless the answer has a truthy `selected_option_id`, in which case
look the question and option up and take `selectedOption?.is_correct || false`. -/
def gradedIsCorrect (questions : List Question) (a : StudentAnswer) : Option Bool :=
  if strTruthy a.selected_option_id = true then
    let question := questions.find? (fun q => q.id == a.question_id)
    let selectedOption := question.bind (fun q => findOption q (jsStr a.selected_option_id))
    some ((selectedOption.map (·.is_correct)).getD false)
  else
    none

/-- A grading state: every question paired with its entry in the `grades`
record (`loadExamData` initialises one grade per question, keyed by the
question id). -/
abbrev GradingState := List (Question × ℚ)

/-- The clamp in `handleGradeChange`:
`maxPoints = question?.points || 0; Math.max(0, Math.min(value, maxPoints))`. -/
def handleGradeChange (questions : List Question) (questionId : String) (value : ℚ) : ℚ :=
  let question := questions.find? (fun q => q.id == questionId)
  let maxPoints := (question.map (·.points)).getD 0
  max 0 (min value maxPoints)

/-- `calculateTotalPoints`: `Object.values(grades).reduce((sum, g) => sum + g, 0)`. -/
def calculateTotalPoints (gs : GradingState) : ℚ :=
  (gs.map (·.2)).foldl (· + ·) 0

/-- `calculateMaxPoints`: `questions.reduce((sum, q) => sum + q.points, 0)`. -/
def calculateMaxPoints (gs : GradingState) : ℚ :=
  (gs.map (·.1.points)).foldl (· + ·) 0

/-- `calculatePercentage`: `max > 0 ? (total / max) * 100 : 0`. -/
def calculatePercentage (gs : GradingState) : ℚ :=
  let total := calculateTotalPoints gs
  let maxPts := calculateMaxPoints gs
  if maxPts > 0 then total / maxPts * 100 else 0

/-- `getGradeLetter` in `ViewResult`. -/
def getGradeLetter (percentage : ℚ) : String :=
  if percentage ≥ 90 then "A"
  else if percentage ≥ 80 then "B"
  else if percentage ≥ 70 then "C"
  else if percentage ≥ 60 then "D"
  else "F"

/-! ## Autosave round trip — `autoSaveAnswers` / `loadExam` in `TakeExam.tsx` -/

/-- The in-memory `Answer` record of `TakeExam`. -/
structure Answer where
  question_id : String
  answer_text : Option String
  selected_option_id : Option String
deriving DecidableEq

/-- A `student_answers` row as written by `autoSaveAnswers`. -/
structure StudentAnswerRow where
  session_id : String
  question_id : String
  answer_text : Option String
  selected_option_id : Option String
  last_saved_at : ℤ
deriving DecidableEq

/-- The persisted answers of one session, keyed by `question_id` — the
store's upsert primitive is keyed on `(session_id, question_id)`. -/
def AnswerStore := String → Option StudentAnswerRow

/-- A single keyed upsert into the store (last write wins). -/
def upsertAnswer (store : AnswerStore) (row : StudentAnswerRow) : AnswerStore :=
  fun qid => if qid = row.question_id then some row else store qid

/-- `autoSaveAnswers`: iterate `Object.entries(answers)` and upsert each as
`{ session_id, question_id, answer_text: a.answer_text || null,
selected_option_id: a.selected_option_id || null, last_saved_at: now }`. -/
def autoSaveAnswers (sessionId : String) (now : ℤ)
    (answers : List (String × Answer)) (store : AnswerStore) : AnswerStore :=
  answers.foldl
    (fun st entry =>
      upsertAnswer st
        { session_id := sessionId
          question_id := entry.1
          answer_text := jsOrNull entry.2.answer_text
          selected_option_id := jsOrNull entry.2.selected_option_id
          last_saved_at := now })
    store

/-- The reload in `loadExam`: each saved row becomes
`answersMap[row.question_id] = { question_id, answer_text:
row.answer_text || undefined, selected_option_id:
row.selected_option_id || undefined }`, viewed here as a lookup function. -/
def loadSavedAnswers (store : AnswerStore) : String → Option Answer :=
  fun qid =>
    (store qid).map fun row =>
      { question_id := row.question_id
        answer_text := jsOrUndef row.answer_text
        selected_option_id := jsOrUndef row.selected_option_id }

/-- Lookup in the in-memory `answers` record. -/
def memLookup (answers : List (String × Answer)) (qid : String) : Option Answer :=
  (answers.find? (fun e => e.1 == qid)).map (·.2)

/-- An answer carries exactly one payload: either a non-empty `answer_text`
or a non-empty `selected_option_id`, the other being absent. -/
def carriesExactlyOne (a : Answer) : Prop :=
  (a.selected_option_id = none ∧ ∃ s, a.answer_text = some s ∧ s ≠ "") ∨
  (a.answer_text = none ∧ ∃ s, a.selected_option_id = some s ∧ s ≠ "")

/-! ## Concrete instances used by closed counterexamples and witnesses -/

/-- The invariant the detector maintains on reachable states: the
max-warnings guard ref is set exactly when the count has reached the
threshold (true from the initial state whenever the threshold is ≥ 1). -/
def AntiCheatInv (maxWarnings : ℕ) (st : AntiCheatState) : Prop :=
  st.hasReachedMaxWarnings = decide (maxWarnings ≤ st.warningCount)

/-- A locked, submitted session row. -/
def exLockedSession : SessionRow :=
  { exam_id := "exam-1"
    student_id := "student-1"
    started_at := 0
    submitted_at := some 99
    status := .submitted
    warning_count := 0
    is_locked := true }

/-- An incorrect option `opt-A`. -/
def exOptionA : QuestionOption :=
  { id := "opt-A", option_text := "A", is_correct := false, order_number := 1 }

/-- The correct option `opt-B`. -/
def exOptionB : QuestionOption :=
  { id := "opt-B", option_text := "B", is_correct := true, order_number := 2 }

/-- A two-option multiple-choice question: option `opt-B` is the correct one. -/
def exMcqQuestion : Question :=
  { id := "q-mcq"
    question_type := .mcq
    question_text := "Pick one"
    points := 4
    order_number := 1
    correct_answer := none
    question_options := [exOptionA, exOptionB] }

/-- An answer selecting option `opt-B` of `exMcqQuestion`. -/
def exMcqAnswer : StudentAnswer :=
  { id := "ans-1"
    question_id := "q-mcq"
    answer_text := none
    selected_option_id := some "opt-B"
    points_earned := none }

/-- A short-answer question whose model answer is a whitespace-only string
(the authoring form stores `correct_answer` verbatim, with no validation
or trimming). -/
def wsQuestion : Question :=
  { id := "q-ws"
    question_type := .short_answer
    question_text := "Q"
    points := 5
    order_number := 1
    correct_answer := some " "
    question_options := [] }

/-- A student answer whose text is a whitespace-only string. -/
def wsAnswer : StudentAnswer :=
  { id := "ans-ws"
    question_id := "q-ws"
    answer_text := some " "
    selected_option_id := none
    points_earned := none }

/-- A short-answer question with model answer `"Paris"`. -/
def exShortQuestion : Question :=
  { id := "q-short"
    question_type := .short_answer
    question_text := "Capital of France?"
    points := 3
    order_number := 1
    correct_answer := some "Paris"
    question_options := [] }

/-- A student answer matching `exShortQuestion` up to case and padding. -/
def exShortAnswer : StudentAnswer :=
  { id := "ans-short"
    question_id := "q-short"
    answer_text := some "  paris "
    selected_option_id := none
    points_earned := none }

/-- A ten-point question used by the percentage scenario. -/
def exTenPointQuestion : Question :=
  { id := "q-ten"
    question_type := .long_answer
    question_text := "Essay"
    points := 10
    order_number := 1
    correct_answer := none
    question_options := [] }

/-- The grading state of the spec scenario: totalPoints 7 out of maxPoints 10. -/
def exGrades7of10 : GradingState := [(exTenPointQuestion, 7)]

/-- An in-memory answer set: a text answer for `q1`, a selected option for `q2`. -/
def exMemAnswers : List (String × Answer) :=
  [ ("q1", { question_id := "q1", answer_text := some "hello", selected_option_id := none })
  , ("q2", { question_id := "q2", answer_text := none, selected_option_id := some "opt-1" }) ]

/-- A store holding no saved answers yet. -/
def exEmptyStore : AnswerStore := fun _ => none

/-! ## Timer lemmas -/

theorem timerFireCount_after_fire (rs : List ℕ) : timerFireCount ⟨true⟩ rs = 0 := by
  induction rs with
  | nil => rfl
  | cons r rs ih => simpa [timerFireCount, timerTick] using ih

theorem timerFireCount_fresh (rs : List ℕ) :
    timerFireCount ⟨false⟩ rs = if 0 ∈ rs then 1 else 0 := by
  induction rs with
  | nil => simp [timerFireCount]
  | cons r rs ih =>
    by_cases h : r = 0
    · subst h
      simp [timerFireCount, timerTick, timerFireCount_after_fire]
    · have hr : ¬ r ≤ 0 := by omega
      simp [timerFireCount, timerTick, hr, ih, Ne.symm h]

/-- C3: for every start time `T` (ms), duration `D` (minutes) and query time,
the remaining time of `useExamTimer` equals `max(0, (T + D*60s) − now)` in
whole seconds — in particular `D*60` at `now = T` and `0` at
`now = T + D*60s + ε` for `ε > 0` — and over any sequence of ticks the
`onTimeUp` callback fires exactly once when some tick observes remaining 0,
even if several consecutive ticks observe 0. -/
theorem timer_remaining_and_expiry_once
    (T : ℤ) (D : ℕ) (ε : ℤ) (ticks : List ℤ) (hε : 0 < ε) :
    (∀ t : ℤ, (calculateTimeRemaining T D t : ℤ) =
      max 0 ((T + (D : ℤ) * 60 * 1000 - t) / 1000)) ∧
    calculateTimeRemaining T D T = D * 60 ∧
    calculateTimeRemaining T D (T + (D : ℤ) * 60 * 1000 + ε) = 0 ∧
    timerFireCount ⟨false⟩ (ticks.map (calculateTimeRemaining T D)) =
      (if 0 ∈ ticks.map (calculateTimeRemaining T D) then 1 else 0) := by
  refine ⟨?_, ?_, ?_, timerFireCount_fresh _⟩
  · intro t
    simp only [calculateTimeRemaining]
    omega
  · have h : T + (D : ℤ) * 60 * 1000 - T = ((D * 60 * 1000 : ℕ) : ℤ) := by
      push_cast
      ring
    rw [calculateTimeRemaining, h, Int.toNat_natCast]
    omega
  · have h : T + (D : ℤ) * 60 * 1000 - (T + (D : ℤ) * 60 * 1000 + ε) = -ε := by
      ring
    rw [calculateTimeRemaining, h, Int.toNat_of_nonpos (by omega)]

theorem timer_remaining_and_expiry_once_witness :
    (0 : ℤ) < 5 ∧
    ((∀ t : ℤ, (calculateTimeRemaining 0 60 t : ℤ) =
        max 0 ((0 + (60 : ℤ) * 60 * 1000 - t) / 1000)) ∧
      calculateTimeRemaining 0 60 0 = 60 * 60 ∧
      calculateTimeRemaining 0 60 (0 + (60 : ℤ) * 60 * 1000 + 5) = 0 ∧
      timerFireCount ⟨false⟩
          ([1000, 3600000, 3601000, 3602000].map (calculateTimeRemaining 0 60)) =
        (if 0 ∈ [1000, 3600000, 3601000, 3602000].map (calculateTimeRemaining 0 60)
          then 1 else 0)) :=
  ⟨by norm_num,
    timer_remaining_and_expiry_once 0 60 5 [1000, 3600000, 3601000, 3602000] (by norm_num)⟩

/-! ## Cheat-detector lemmas -/

theorem antiCheatRun_append (m : ℕ) (st : AntiCheatState) (es es' : List FocusEvent) :
    antiCheatRun m st (es ++ es') = antiCheatRun m (antiCheatRun m st es) es' := by
  induction es generalizing st with
  | nil => rfl
  | cons e es ih => simp [antiCheatRun, ih]

theorem antiCheatStep_count_le (m : ℕ) (st : AntiCheatState) (e : FocusEvent) :
    st.warningCount ≤ (antiCheatStep m st e).1.warningCount := by
  simp only [antiCheatStep]
  split
  · split <;> simp
  · exact le_refl _

theorem antiCheatRun_count_le (m : ℕ) (st : AntiCheatState) (es : List FocusEvent) :
    st.warningCount ≤ (antiCheatRun m st es).warningCount := by
  induction es generalizing st with
  | nil => exact le_refl _
  | cons e es ih =>
    calc st.warningCount ≤ (antiCheatStep m st e).1.warningCount :=
          antiCheatStep_count_le m st e
      _ ≤ (antiCheatRun m (antiCheatStep m st e).1 es).warningCount := ih _
      _ = (antiCheatRun m st (e :: es)).warningCount := rfl

theorem antiCheatStep_reached_id (m : ℕ) (st : AntiCheatState) (e : FocusEvent)
    (h : st.hasReachedMaxWarnings = true) :
    antiCheatStep m st e = (st, ⟨none, false⟩) := by
  unfold antiCheatStep
  split
  · rename_i hcond
    rw [hcond.2] at h
    exact absurd h (by simp)
  · rfl

theorem antiCheatRun_reached_id (m : ℕ) (st : AntiCheatState) (es : List FocusEvent)
    (h : st.hasReachedMaxWarnings = true) :
    antiCheatRun m st es = st := by
  induction es with
  | nil => rfl
  | cons e es ih => simp [antiCheatRun, antiCheatStep_reached_id m st e h, ih]

theorem antiCheatMaxFires_reached (m : ℕ) (st : AntiCheatState) (es : List FocusEvent)
    (h : st.hasReachedMaxWarnings = true) :
    antiCheatMaxFires m st es = 0 := by
  induction es with
  | nil => rfl
  | cons e es ih => simp [antiCheatMaxFires, antiCheatStep_reached_id m st e h, ih]

theorem antiCheatStep_inv (m : ℕ) (st : AntiCheatState) (e : FocusEvent)
    (h : AntiCheatInv m st) :
    AntiCheatInv m (antiCheatStep m st e).1 := by
  unfold AntiCheatInv at h ⊢
  simp only [antiCheatStep]
  split
  · split
    · rename_i hle
      simpa using hle
    · rename_i hcond hle
      simp only [hcond.2]
      simpa using hle
  · exact h

theorem antiCheatRun_inv (m : ℕ) (st : AntiCheatState) (es : List FocusEvent)
    (h : AntiCheatInv m st) :
    AntiCheatInv m (antiCheatRun m st es) := by
  induction es generalizing st with
  | nil => exact h
  | cons e es ih => exact ih _ (antiCheatStep_inv m st e h)

theorem antiCheatInv_init (m : ℕ) (hm : 1 ≤ m) : AntiCheatInv m initAntiCheat := by
  unfold AntiCheatInv initAntiCheat
  have h : ¬ m ≤ 0 := by omega
  simp [h]

theorem antiCheatMaxFires_fresh (m : ℕ) (st : AntiCheatState) (es : List FocusEvent)
    (hinv : AntiCheatInv m st) (hfr : st.hasReachedMaxWarnings = false) :
    antiCheatMaxFires m st es =
      if m ≤ (antiCheatRun m st es).warningCount then 1 else 0 := by
  induction es generalizing st with
  | nil =>
    have : ¬ m ≤ st.warningCount := by
      intro hle
      unfold AntiCheatInv at hinv
      rw [hfr] at hinv
      simp [hle] at hinv
    simp [antiCheatMaxFires, antiCheatRun, this]
  | cons e es ih =>
    by_cases hc : countsAsFocusLoss e = true
    · by_cases hle : m ≤ st.warningCount + 1
      · have hstep : antiCheatStep m st e =
            (⟨st.warningCount + 1, true⟩, ⟨some (st.warningCount + 1), true⟩) := by
          simp only [antiCheatStep]
          rw [if_pos ⟨hc, hfr⟩, if_pos hle]
        simp only [antiCheatMaxFires, antiCheatRun, hstep]
        rw [antiCheatMaxFires_reached m _ es rfl, antiCheatRun_reached_id m _ es rfl]
        simp [hle]
      · have hstep : antiCheatStep m st e =
            (⟨st.warningCount + 1, st.hasReachedMaxWarnings⟩,
              ⟨some (st.warningCount + 1), false⟩) := by
          simp only [antiCheatStep]
          rw [if_pos ⟨hc, hfr⟩, if_neg hle]
        have hinv' : AntiCheatInv m (⟨st.warningCount + 1, st.hasReachedMaxWarnings⟩ :
            AntiCheatState) := by
          unfold AntiCheatInv
          rw [hfr, decide_eq_false hle]
        simp only [antiCheatMaxFires, antiCheatRun, hstep]
        rw [ih _ hinv' (by simpa using hfr)]
        simp
    · have hstep : antiCheatStep m st e = (st, ⟨none, false⟩) := by
        simp only [antiCheatStep]
        rw [if_neg]
        intro hcond
        exact hc hcond.1
      simp only [antiCheatMaxFires, antiCheatRun, hstep]
      rw [ih _ hinv hfr]
      simp

/-- C2: with the detector enabled at a positive threshold, over every
sequence of focus-loss events the warning count is non-decreasing, the
`onMaxWarningsReached` callback fires exactly once — precisely at the event
at which the count first reaches `maxWarnings`, not before and never again
after — and once the threshold is reached no further events are counted. -/
theorem anti_cheat_warning_discipline
    (maxWarnings : ℕ) (es es' : List FocusEvent) (e : FocusEvent)
    (hmax : 1 ≤ maxWarnings) :
    (antiCheatRun maxWarnings initAntiCheat es).warningCount ≤
      (antiCheatRun maxWarnings initAntiCheat (es ++ es')).warningCount ∧
    antiCheatMaxFires maxWarnings initAntiCheat es =
      (if maxWarnings ≤ (antiCheatRun maxWarnings initAntiCheat es).warningCount
        then 1 else 0) ∧
    ((antiCheatStep maxWarnings (antiCheatRun maxWarnings initAntiCheat es) e).2.maxReached
        = true ↔
      (antiCheatRun maxWarnings initAntiCheat (es ++ [e])).warningCount = maxWarnings ∧
        (antiCheatRun maxWarnings initAntiCheat es).warningCount < maxWarnings) ∧
    (maxWarnings ≤ (antiCheatRun maxWarnings initAntiCheat es).warningCount →
      (antiCheatRun maxWarnings initAntiCheat (es ++ es')).warningCount =
        (antiCheatRun maxWarnings initAntiCheat es).warningCount) := by
  set st := antiCheatRun maxWarnings initAntiCheat es with hst
  have hinv : AntiCheatInv maxWarnings st :=
    antiCheatRun_inv maxWarnings initAntiCheat es (antiCheatInv_init maxWarnings hmax)
  have happ : antiCheatRun maxWarnings initAntiCheat (es ++ es') =
      antiCheatRun maxWarnings st es' := by
    rw [hst, antiCheatRun_append]
  have happ1 : antiCheatRun maxWarnings initAntiCheat (es ++ [e]) =
      (antiCheatStep maxWarnings st e).1 := by
    rw [hst, antiCheatRun_append]
    rfl
  refine ⟨?_, ?_, ?_, ?_⟩
  · rw [happ]
    exact antiCheatRun_count_le maxWarnings st es'
  · exact antiCheatMaxFires_fresh maxWarnings initAntiCheat es
      (antiCheatInv_init maxWarnings hmax) rfl
  · rw [happ1]
    by_cases hc : countsAsFocusLoss e = true
    · by_cases hr : st.hasReachedMaxWarnings = true
      · have hle : maxWarnings ≤ st.warningCount := by
          unfold AntiCheatInv at hinv
          rw [hr] at hinv
          exact of_decide_eq_true hinv.symm
        rw [antiCheatStep_reached_id maxWarnings st e hr]
        simp
        omega
      · have hfr : st.hasReachedMaxWarnings = false := by
          simpa using hr
        have hlt : st.warningCount < maxWarnings := by
          unfold AntiCheatInv at hinv
          by_contra hle
          rw [hfr] at hinv
          simp at hle
          simp [hle] at hinv
        by_cases hle : maxWarnings ≤ st.warningCount + 1
        · have hstep : antiCheatStep maxWarnings st e =
              (⟨st.warningCount + 1, true⟩, ⟨some (st.warningCount + 1), true⟩) := by
            simp only [antiCheatStep]
            rw [if_pos ⟨hc, hfr⟩, if_pos hle]
          rw [hstep]
          simp
          omega
        · have hstep : antiCheatStep maxWarnings st e =
              (⟨st.warningCount + 1, st.hasReachedMaxWarnings⟩,
                ⟨some (st.warningCount + 1), false⟩) := by
            simp only [antiCheatStep]
            rw [if_pos ⟨hc, hfr⟩, if_neg hle]
          rw [hstep]
          simp
          omega
    · have hstep : antiCheatStep maxWarnings st e = (st, ⟨none, false⟩) := by
        simp only [antiCheatStep]
        rw [if_neg]
        intro hcond
        exact hc hcond.1
      rw [hstep]
      simp
      omega
  · intro hle
    have hr : st.hasReachedMaxWarnings = true := by
      unfold AntiCheatInv at hinv
      rw [hinv]
      simpa using hle
    rw [happ, antiCheatRun_reached_id maxWarnings st es' hr]

theorem anti_cheat_warning_discipline_witness :
    1 ≤ 2 ∧
    ((antiCheatRun 2 initAntiCheat [.blur]).warningCount ≤
        (antiCheatRun 2 initAntiCheat ([.blur] ++ [.visibilityChange true, .blur])).warningCount ∧
      antiCheatMaxFires 2 initAntiCheat [.blur] =
        (if 2 ≤ (antiCheatRun 2 initAntiCheat [.blur]).warningCount then 1 else 0) ∧
      ((antiCheatStep 2 (antiCheatRun 2 initAntiCheat [.blur]) (.visibilityChange true)).2.maxReached
          = true ↔
        (antiCheatRun 2 initAntiCheat ([.blur] ++ [.visibilityChange true])).warningCount = 2 ∧
          (antiCheatRun 2 initAntiCheat [.blur]).warningCount < 2) ∧
      (2 ≤ (antiCheatRun 2 initAntiCheat [.blur]).warningCount →
        (antiCheatRun 2 initAntiCheat ([.blur] ++ [.visibilityChange true, .blur])).warningCount =
          (antiCheatRun 2 initAntiCheat [.blur]).warningCount)) :=
  ⟨by norm_num,
    anti_cheat_warning_discipline 2 [.blur] [.visibilityChange true, .blur]
      (.visibilityChange true) (by norm_num)⟩

/-! ## Session submit and create-or-resume -/

/-- C1 counterexample: a manual submit at time 1 followed by a forced submit
at time 2 is not a no-op — the second call changes the persisted status
(`submitted` becomes `auto_submitted`) and overwrites `submitted_at`,
because `submitExam` issues its terminal update unconditionally. -/
theorem submit_second_call_changes_persisted_state :
    (submitSessionUpdate true 2 (submitSessionUpdate false 1 exSession0)).status ≠
      (submitSessionUpdate false 1 exSession0).status ∧
    (submitSessionUpdate true 2 (submitSessionUpdate false 1 exSession0)).submitted_at ≠
      (submitSessionUpdate false 1 exSession0).submitted_at ∧
    (submitSessionUpdate false 1 exSession0).is_locked = true ∧
    (submitSessionUpdate false 1 exSession0).submitted_at = some 1 := by
  decide

/-- C1 (amended): after submitting twice in a row — manual then forced or
forced then manual — the session is locked and `submitted_at` is set after
either call; however the second call is not a no-op: it unconditionally
re-applies the terminal update, so the persisted status ends as the second
call's flavour and `submitted_at` ends as the second call's time. -/
theorem submit_twice_locks_but_second_overwrites
    (s : SessionRow) (a₁ a₂ : Bool) (t₁ t₂ : ℤ) :
    (submitSessionUpdate a₁ t₁ s).is_locked = true ∧
    (submitSessionUpdate a₁ t₁ s).submitted_at = some t₁ ∧
    (submitSessionUpdate a₂ t₂ (submitSessionUpdate a₁ t₁ s)).is_locked = true ∧
    (submitSessionUpdate a₂ t₂ (submitSessionUpdate a₁ t₁ s)).submitted_at = some t₂ ∧
    (submitSessionUpdate a₂ t₂ (submitSessionUpdate a₁ t₁ s)).status =
      (if a₂ then SessionStatus.auto_submitted else SessionStatus.submitted) := by
  simp [submitSessionUpdate]

/-- C5: evaluation of `submitExam` at a failing lock write. When the store
reports the failure in-band (the supabase client resolves query and network
failures into the `error` field, and `submitExam` never reads the result),
the code still navigates away as if submitted, shows no user-visible error,
and the session remains `in_progress` in the store. Even on the
exception path that reaches the `catch`, the error goes only to the console:
no user-visible error surface exists in `submitExam`. -/
theorem submit_lock_write_failure_behavior :
    (submitExam false 5 .errorResult exSession0).navigatedAway = true ∧
    (submitExam false 5 .errorResult exSession0).session.status = .in_progress ∧
    (submitExam false 5 .errorResult exSession0).errorShownToUser = false ∧
    (submitExam false 5 .rejected exSession0).errorShownToUser = false ∧
    (submitExam false 5 .rejected exSession0).navigatedAway = false ∧
    (submitExam false 5 .rejected exSession0).submitting = false := by
  decide

/-- C4: entering an exam under the data-model invariant that `is_locked` is
set exactly when the status has left `in_progress`: an existing locked or
terminal session redirects the student away; an existing `in_progress`
session is entered unchanged (same `started_at`, the timer does not reset);
with no existing session a fresh one is created with status `in_progress`
and `started_at = now`. -/
theorem create_or_resume_behavior
    (s : SessionRow) (examId studentId : String) (now : ℤ)
    (hinv : s.is_locked = isTerminalStatus s.status) :
    ((s.is_locked = true ∨ isTerminalStatus s.status = true) →
      createOrResume (some s) examId studentId now = .redirect) ∧
    (s.status = .in_progress →
      createOrResume (some s) examId studentId now = .enter s) ∧
    createOrResume none examId studentId now = .enter (newSessionRow examId studentId now) ∧
    (newSessionRow examId studentId now).status = .in_progress ∧
    (newSessionRow examId studentId now).started_at = now := by
  refine ⟨?_, ?_, rfl, rfl, rfl⟩
  · intro h
    simp only [createOrResume]
    rw [if_pos]
    rcases h with h | h
    · exact Or.inl h
    · exact Or.inl (hinv.trans h)
  · intro h
    simp only [createOrResume]
    rw [if_neg]
    intro hcond
    have hl : s.is_locked = false := by
      rw [hinv, h]
      rfl
    rw [h, hl] at hcond
    simp at hcond

theorem create_or_resume_behavior_witness :
    exLockedSession.is_locked = isTerminalStatus exLockedSession.status ∧
    (((exLockedSession.is_locked = true ∨ isTerminalStatus exLockedSession.status = true) →
        createOrResume (some exLockedSession) "exam-1" "student-1" 7 = .redirect) ∧
      (exLockedSession.status = .in_progress →
        createOrResume (some exLockedSession) "exam-1" "student-1" 7 = .enter exLockedSession) ∧
      createOrResume none "exam-1" "student-1" 7 =
        .enter (newSessionRow "exam-1" "student-1" 7) ∧
      (newSessionRow "exam-1" "student-1" 7).status = .in_progress ∧
      (newSessionRow "exam-1" "student-1" 7).started_at = 7) :=
  ⟨by decide, create_or_resume_behavior exLockedSession "exam-1" "student-1" 7 (by decide)⟩

/-! ## Scoring engine -/

/-- C6: for an `mcq` or `true_false` question and an answer selecting an
option that exists among the question's options, the grading submit marks the
answer correct iff the selected option has `is_correct = true`,
`handleAutoGrade` awards `question.points` when correct and 0 otherwise, and
a question with no submitted answer always receives 0 points. -/
theorem mcq_auto_grade_correctness
    (q : Question) (a : StudentAnswer) (oid : String) (opt : QuestionOption)
    (hty : q.question_type = .mcq ∨ q.question_type = .true_false)
    (hsel : a.selected_option_id = some oid)
    (hne : oid ≠ "")
    (hfind : findOption q oid = some opt)
    (hqid : a.question_id = q.id) :
    autoGradeQuestion q (some a) = (if opt.is_correct = true then q.points else 0) ∧
    gradedIsCorrect [q] a = some opt.is_correct ∧
    (∀ q' : Question, autoGradeQuestion q' none = 0) := by
  have hstruthy : strTruthy (some oid) = true := by
    simp [strTruthy, hne]
  refine ⟨?_, ?_, ?_⟩
  · rcases hty with h | h
    · simp [autoGradeQuestion, hsel, h, hstruthy, jsStr, hfind]
    · simp [autoGradeQuestion, hsel, h, hstruthy, jsStr, hfind]
  · simp [gradedIsCorrect, hsel, hstruthy, jsStr, hqid, List.find?, hfind]
  · intro q'
    simp [autoGradeQuestion, strTruthy]

theorem mcq_auto_grade_correctness_witness :
    (exMcqQuestion.question_type = .mcq ∨ exMcqQuestion.question_type = .true_false) ∧
    exMcqAnswer.selected_option_id = some "opt-B" ∧
    "opt-B" ≠ "" ∧
    findOption exMcqQuestion "opt-B" = some exOptionB ∧
    exMcqAnswer.question_id = exMcqQuestion.id ∧
    (autoGradeQuestion exMcqQuestion (some exMcqAnswer) =
        (if exOptionB.is_correct = true then exMcqQuestion.points else 0) ∧
      gradedIsCorrect [exMcqQuestion] exMcqAnswer = some exOptionB.is_correct ∧
      (∀ q' : Question, autoGradeQuestion q' none = 0)) :=
  ⟨by decide, by decide, by decide, by decide, by decide,
    mcq_auto_grade_correctness exMcqQuestion exMcqAnswer "opt-B" exOptionB
      (by decide) (by decide) (by decide) (by decide) (by decide)⟩

/-- C7 counterexample: a short-answer question whose model answer is the
whitespace-only string `" "` and a student answer of `" "`. The two are
equal after trimming and case-insensitive comparison and the question is
worth 5 points, yet `handleAutoGrade` awards 0, because it additionally
requires `answer_text.trim()` to be truthy. -/
theorem short_answer_trim_equal_but_zero_points :
    strTruthy wsQuestion.correct_answer = true ∧
    jsToLower (jsTrim (jsStr wsAnswer.answer_text)) =
      jsToLower (jsTrim (jsStr wsQuestion.correct_answer)) ∧
    wsQuestion.points ≠ 0 ∧
    autoGradeQuestion wsQuestion (some wsAnswer) = 0 := by
  decide

/-- C7 (amended): for a `short_answer` or `long_answer` question with a
non-empty model answer, `handleAutoGrade` awards full points iff the
student's answer text trims to a non-empty string and equals the model
answer after trimming and case-insensitive comparison, and 0 points
otherwise — in particular a whitespace-only answer earns 0 even when it is
trim-equal to a whitespace-only model answer. -/
theorem short_answer_auto_grade_exact_match
    (q : Question) (a : StudentAnswer) (ca : String)
    (hty : q.question_type = .short_answer ∨ q.question_type = .long_answer)
    (hca : q.correct_answer = some ca)
    (hcane : ca ≠ "")
    (hpts : 0 < q.points) :
    (autoGradeQuestion q (some a) = q.points ↔
      ∃ t, a.answer_text = some t ∧ jsTrim t ≠ "" ∧
        jsToLower (jsTrim t) = jsToLower (jsTrim ca)) ∧
    (autoGradeQuestion q (some a) = q.points ∨ autoGradeQuestion q (some a) = 0) := by
  have hne0 : (0 : ℚ) ≠ q.points := Ne.symm (ne_of_gt hpts)
  have hqt1 : q.question_type ≠ .mcq := by
    rcases hty with h | h <;> simp [h]
  have hqt2 : q.question_type ≠ .true_false := by
    rcases hty with h | h <;> simp [h]
  cases ha : a.answer_text with
  | none =>
    have hval : autoGradeQuestion q (some a) = 0 := by
      simp [autoGradeQuestion, ha, strTruthy, hqt1, hqt2]
    rw [hval]
    simp [hne0]
  | some txt =>
    by_cases htxt : txt = ""
    · subst htxt
      have hval : autoGradeQuestion q (some a) = 0 := by
        simp [autoGradeQuestion, ha, strTruthy, hqt1, hqt2]
      rw [hval]
      have hj0 : jsTrim "" = "" := rfl
      simp [hne0, hj0]
    · by_cases hjt : jsTrim txt = ""
      · have hval : autoGradeQuestion q (some a) = 0 := by
          simp [autoGradeQuestion, ha, strTruthy, hqt1, hqt2, htxt, hty, jsStr, hca, hjt]
        rw [hval]
        simp [hne0, hjt]
      · by_cases heq : jsToLower (jsTrim txt) = jsToLower (jsTrim ca)
        · have hval : autoGradeQuestion q (some a) = q.points := by
            simp [autoGradeQuestion, ha, strTruthy, hqt1, hqt2, htxt, hty, jsStr, hca,
              hcane, hjt, heq]
          rw [hval]
          simp [hjt, heq]
        · have hval : autoGradeQuestion q (some a) = 0 := by
            simp [autoGradeQuestion, ha, strTruthy, hqt1, hqt2, htxt, hty, jsStr, hca,
              hcane, hjt, heq]
          rw [hval]
          simp [hne0, heq]

theorem short_answer_auto_grade_exact_match_witness :
    (exShortQuestion.question_type = .short_answer ∨
      exShortQuestion.question_type = .long_answer) ∧
    exShortQuestion.correct_answer = some "Paris" ∧
    "Paris" ≠ "" ∧
    0 < exShortQuestion.points ∧
    ((autoGradeQuestion exShortQuestion (some exShortAnswer) = exShortQuestion.points ↔
        ∃ t, exShortAnswer.answer_text = some t ∧ jsTrim t ≠ "" ∧
          jsToLower (jsTrim t) = jsToLower (jsTrim "Paris")) ∧
      (autoGradeQuestion exShortQuestion (some exShortAnswer) = exShortQuestion.points ∨
        autoGradeQuestion exShortQuestion (some exShortAnswer) = 0)) :=
  ⟨by decide, by decide, by decide, by decide,
    short_answer_auto_grade_exact_match exShortQuestion exShortAnswer "Paris"
      (by decide) (by decide) (by decide) (by decide)⟩

theorem foldl_add_eq (l : List ℚ) (x : ℚ) : l.foldl (· + ·) x = x + l.sum := by
  induction l generalizing x with
  | nil => simp
  | cons a l ih =>
    simp only [List.foldl_cons, List.sum_cons, ih]
    ring

theorem foldl_add_nonneg (l : List ℚ) (x : ℚ) (hx : 0 ≤ x) (h : ∀ y ∈ l, 0 ≤ y) :
    0 ≤ l.foldl (· + ·) x := by
  induction l generalizing x with
  | nil => exact hx
  | cons a l ih =>
    exact ih (x + a) (add_nonneg hx (h a (List.mem_cons_self a l)))
      (fun y hy => h y (List.mem_cons_of_mem a hy))

theorem foldl_grades_le_points (gs : GradingState) :
    ∀ x y : ℚ, x ≤ y → (∀ p ∈ gs, p.2 ≤ p.1.points) →
      (gs.map (·.2)).foldl (· + ·) x ≤ (gs.map (·.1.points)).foldl (· + ·) y := by
  induction gs with
  | nil =>
    intro x y hxy _
    exact hxy
  | cons p gs ih =>
    intro x y hxy h
    exact ih (x + p.2) (y + p.1.points)
      (add_le_add hxy (h p (List.mem_cons_self p gs)))
      (fun p' hp' => h p' (List.mem_cons_of_mem p hp'))

/-- C8: for every grading state, `calculateTotalPoints` is the sum of the
grades, `calculateMaxPoints` the sum of the question points,
`calculatePercentage` is `100 × total / max` when `max > 0` and `0` when
`max = 0`; the grade letter bands are `A ↔ 90 ≤ p`, `B ↔ 80 ≤ p < 90`,
`C ↔ 70 ≤ p < 80`, `D ↔ 60 ≤ p < 70`, `F ↔ p < 60` (inclusive at the lower
bound); in particular totalPoints 7 of maxPoints 10 yields 70% and letter C. -/
theorem grading_aggregate_and_letter (gs : GradingState) (p : ℚ) :
    calculateTotalPoints gs = (gs.map (·.2)).sum ∧
    calculateMaxPoints gs = (gs.map (·.1.points)).sum ∧
    (0 < calculateMaxPoints gs →
      calculatePercentage gs = 100 * calculateTotalPoints gs / calculateMaxPoints gs) ∧
    (calculateMaxPoints gs = 0 → calculatePercentage gs = 0) ∧
    (getGradeLetter p = "A" ↔ 90 ≤ p) ∧
    (getGradeLetter p = "B" ↔ 80 ≤ p ∧ p < 90) ∧
    (getGradeLetter p = "C" ↔ 70 ≤ p ∧ p < 80) ∧
    (getGradeLetter p = "D" ↔ 60 ≤ p ∧ p < 70) ∧
    (getGradeLetter p = "F" ↔ p < 60) ∧
    calculatePercentage exGrades7of10 = 70 ∧
    getGradeLetter (calculatePercentage exGrades7of10) = "C" := by
  have hpct : calculatePercentage exGrades7of10 = 70 := by
    norm_num [calculatePercentage, calculateTotalPoints, calculateMaxPoints,
      exGrades7of10, exTenPointQuestion]
  refine ⟨?_, ?_, ?_, ?_, ?_, ?_, ?_, ?_, ?_, hpct, ?_⟩
  · rw [calculateTotalPoints, foldl_add_eq, zero_add]
  · rw [calculateMaxPoints, foldl_add_eq, zero_add]
  · intro hmax
    simp only [calculatePercentage]
    rw [if_pos hmax]
    ring
  · intro hmax
    simp only [calculatePercentage]
    rw [if_neg (by rw [hmax]; exact lt_irrefl 0)]
  · unfold getGradeLetter
    split_ifs with h1 h2 h3 h4 <;> simp_all
  · unfold getGradeLetter
    split_ifs with h1 h2 h3 h4 <;> simp_all
  · unfold getGradeLetter
    split_ifs with h1 h2 h3 h4 <;> simp_all <;>
      first
        | linarith
        | (intro h5; linarith)
  · unfold getGradeLetter
    split_ifs with h1 h2 h3 h4 <;> simp_all <;>
      first
        | linarith
        | (intro h5; linarith)
  · unfold getGradeLetter
    split_ifs with h1 h2 h3 h4 <;> simp_all <;>
      first
        | linarith
        | (intro h5; linarith)
  · rw [hpct]
    norm_num [getGradeLetter]

theorem grading_aggregate_and_letter_witness :
    getGradeLetter 85 = "B" ∧ calculatePercentage exGrades7of10 = 70 :=
  ⟨((grading_aggregate_and_letter exGrades7of10 85).2.2.2.2.2.1).mpr (by norm_num),
    (grading_aggregate_and_letter exGrades7of10 85).2.2.2.2.2.2.2.2.2.1⟩

/-- C10: `handleGradeChange` clamps every entered grade into the interval
`[0, question.points]`, and for every grading state whose grades respect
those bounds, `0 ≤ totalPoints ≤ maxPoints` and the percentage lies in
`[0, 100]`. -/
theorem manual_grade_clamp_and_bounds
    (questions : List Question) (questionId : String) (value : ℚ)
    (q : Question) (gs : GradingState)
    (hfind : questions.find? (fun q' => q'.id == questionId) = some q)
    (hq : 0 ≤ q.points)
    (hgs : ∀ p ∈ gs, 0 ≤ p.2 ∧ p.2 ≤ p.1.points) :
    (0 ≤ handleGradeChange questions questionId value ∧
      handleGradeChange questions questionId value ≤ q.points) ∧
    0 ≤ calculateTotalPoints gs ∧
    calculateTotalPoints gs ≤ calculateMaxPoints gs ∧
    0 ≤ calculatePercentage gs ∧
    calculatePercentage gs ≤ 100 := by
  have htot : 0 ≤ calculateTotalPoints gs :=
    foldl_add_nonneg _ 0 le_rfl (by
      intro y hy
      rcases List.mem_map.mp hy with ⟨pq, hpq, rfl⟩
      exact (hgs pq hpq).1)
  have hle : calculateTotalPoints gs ≤ calculateMaxPoints gs :=
    foldl_grades_le_points gs 0 0 le_rfl (fun pq hpq => (hgs pq hpq).2)
  refine ⟨?_, htot, hle, ?_, ?_⟩
  · have hmaxpts :
        ((questions.find? (fun q' => q'.id == questionId)).map (·.points)).getD 0 =
          q.points := by
      rw [hfind]
      rfl
    simp only [handleGradeChange, hmaxpts]
    exact ⟨le_max_left 0 _, by rw [max_le_iff]; exact ⟨hq, min_le_right _ _⟩⟩
  · simp only [calculatePercentage]
    split_ifs with hmax
    · exact mul_nonneg (div_nonneg htot (le_of_lt hmax)) (by norm_num)
    · exact le_rfl
  · simp only [calculatePercentage]
    split_ifs with hmax
    · calc calculateTotalPoints gs / calculateMaxPoints gs * 100
          ≤ 1 * 100 := by
            apply mul_le_mul_of_nonneg_right _ (by norm_num)
            exact (div_le_one hmax).mpr hle
        _ = 100 := one_mul 100
    · norm_num

theorem manual_grade_clamp_and_bounds_witness :
    [exTenPointQuestion].find? (fun q' => q'.id == "q-ten") = some exTenPointQuestion ∧
    (0 : ℚ) ≤ exTenPointQuestion.points ∧
    (∀ p ∈ exGrades7of10, 0 ≤ p.2 ∧ p.2 ≤ p.1.points) ∧
    ((0 ≤ handleGradeChange [exTenPointQuestion] "q-ten" 15 ∧
        handleGradeChange [exTenPointQuestion] "q-ten" 15 ≤ exTenPointQuestion.points) ∧
      0 ≤ calculateTotalPoints exGrades7of10 ∧
      calculateTotalPoints exGrades7of10 ≤ calculateMaxPoints exGrades7of10 ∧
      0 ≤ calculatePercentage exGrades7of10 ∧
      calculatePercentage exGrades7of10 ≤ 100) :=
  ⟨by decide, by decide, by decide,
    manual_grade_clamp_and_bounds [exTenPointQuestion] "q-ten" 15 exTenPointQuestion
      exGrades7of10 (by decide) (by decide) (by decide)⟩

/-! ## Autosave round trip -/

theorem jsRoundTripField (o : Option String)
    (h : o = none ∨ ∃ s, o = some s ∧ s ≠ "") :
    jsOrUndef (jsOrNull o) = o := by
  rcases h with rfl | ⟨s, rfl, hs⟩
  · rfl
  · simp [jsOrNull, jsOrUndef, strTruthy, hs]

theorem autoSaveAnswers_cons (sid : String) (now : ℤ) (e : String × Answer)
    (es : List (String × Answer)) (store : AnswerStore) :
    autoSaveAnswers sid now (e :: es) store =
      autoSaveAnswers sid now es (upsertAnswer store
        { session_id := sid
          question_id := e.1
          answer_text := jsOrNull e.2.answer_text
          selected_option_id := jsOrNull e.2.selected_option_id
          last_saved_at := now }) := rfl

theorem autoSaveAnswers_not_mem (sid : String) (now : ℤ) :
    ∀ (answers : List (String × Answer)) (store : AnswerStore) (qid : String),
      (∀ e ∈ answers, e.1 ≠ qid) →
      autoSaveAnswers sid now answers store qid = store qid := by
  intro answers
  induction answers with
  | nil =>
    intro store qid _
    rfl
  | cons e es ih =>
    intro store qid h
    rw [autoSaveAnswers_cons, ih _ _ (fun e' he' => h e' (List.mem_cons_of_mem e he'))]
    simp only [upsertAnswer]
    rw [if_neg]
    exact fun hq => h e (List.mem_cons_self e es) hq.symm

theorem autoSaveAnswers_mem (sid : String) (now : ℤ) :
    ∀ (answers : List (String × Answer)) (store : AnswerStore) (k : String) (a : Answer),
      (answers.map (·.1)).Nodup → (k, a) ∈ answers →
      autoSaveAnswers sid now answers store k =
        some { session_id := sid
               question_id := k
               answer_text := jsOrNull a.answer_text
               selected_option_id := jsOrNull a.selected_option_id
               last_saved_at := now } := by
  intro answers
  induction answers with
  | nil =>
    intro store k a _ hmem
    cases hmem
  | cons e es ih =>
    intro store k a hnodup hmem
    rw [List.map_cons] at hnodup
    rcases List.mem_cons.mp hmem with he | he
    · cases he.symm
      rw [autoSaveAnswers_cons]
      have hkeys : ∀ e' ∈ es, e'.1 ≠ k := by
        intro e' he' hk
        exact (List.nodup_cons.mp hnodup).1 (hk ▸ List.mem_map_of_mem (·.1) he')
      rw [autoSaveAnswers_not_mem sid now es _ k hkeys]
      simp [upsertAnswer]
    · rw [autoSaveAnswers_cons]
      exact ih _ k a (List.nodup_cons.mp hnodup).2 he

/-- C9: persisting the in-memory answer set via one autosave tick and then
reloading the session reproduces the same `questionId → answer` mapping,
provided the in-memory keys are distinct, each answer is stored under its
own `question_id`, each answer carries exclusively either a non-empty
`answer_text` or a non-empty `selected_option_id`, and the store holds rows
only for questions present in memory. -/
theorem autosave_reload_round_trip
    (sessionId : String) (now : ℤ) (answers : List (String × Answer))
    (store : AnswerStore) (qid : String)
    (hnodup : (answers.map (·.1)).Nodup)
    (hqid : ∀ e ∈ answers, e.2.question_id = e.1)
    (hone : ∀ e ∈ answers, carriesExactlyOne e.2)
    (hcover : ∀ k, store k ≠ none → memLookup answers k ≠ none) :
    loadSavedAnswers (autoSaveAnswers sessionId now answers store) qid =
      memLookup answers qid := by
  cases hm : memLookup answers qid with
  | none =>
    have hf : answers.find? (fun e => e.1 == qid) = none := by
      cases hf' : answers.find? (fun e => e.1 == qid) with
      | none => rfl
      | some e =>
        rw [memLookup, hf'] at hm
        cases hm
    have hkeys : ∀ e ∈ answers, e.1 ≠ qid := by
      intro e he
      have := List.find?_eq_none.mp hf e he
      simpa using this
    have hsq : store qid = none := by
      by_contra hne
      exact (hcover qid hne) hm
    simp only [loadSavedAnswers]
    rw [autoSaveAnswers_not_mem sessionId now answers store qid hkeys, hsq]
    rfl
  | some a =>
    have hf : ∃ e, answers.find? (fun e => e.1 == qid) = some e ∧ e.2 = a := by
      cases hf' : answers.find? (fun e => e.1 == qid) with
      | none =>
        rw [memLookup, hf'] at hm
        cases hm
      | some e =>
        refine ⟨e, rfl, ?_⟩
        rw [memLookup, hf'] at hm
        cases hm
        rfl
    obtain ⟨e, hfe, hea⟩ := hf
    have hmem : e ∈ answers := List.mem_of_find?_eq_some hfe
    have hkey : e.1 = qid := by
      have := List.find?_some hfe
      simpa using this
    have hmem' : (qid, a) ∈ answers := by
      have he : e = (qid, a) := Prod.ext hkey hea
      rwa [he] at hmem
    have hone' := hone (qid, a) hmem'
    have hq' : a.question_id = qid := hqid (qid, a) hmem'
    have htext : jsOrUndef (jsOrNull a.answer_text) = a.answer_text := by
      apply jsRoundTripField
      rcases hone' with ⟨hsel, s, hs, hsne⟩ | ⟨htex, s, hs, hsne⟩
      · exact Or.inr ⟨s, hs, hsne⟩
      · exact Or.inl htex
    have hselr : jsOrUndef (jsOrNull a.selected_option_id) = a.selected_option_id := by
      apply jsRoundTripField
      rcases hone' with ⟨hsel, s, hs, hsne⟩ | ⟨htex, s, hs, hsne⟩
      · exact Or.inl hsel
      · exact Or.inr ⟨s, hs, hsne⟩
    simp only [loadSavedAnswers]
    rw [autoSaveAnswers_mem sessionId now answers store qid a hnodup hmem']
    simp only [Option.map_some']
    rw [htext, hselr, ← hq']

theorem autosave_reload_round_trip_witness :
    (exMemAnswers.map (·.1)).Nodup ∧
    (∀ e ∈ exMemAnswers, e.2.question_id = e.1) ∧
    (∀ e ∈ exMemAnswers, carriesExactlyOne e.2) ∧
    (∀ k, exEmptyStore k ≠ none → memLookup exMemAnswers k ≠ none) ∧
    loadSavedAnswers (autoSaveAnswers "sess-1" 3 exMemAnswers exEmptyStore) "q1" =
      memLookup exMemAnswers "q1" :=
  ⟨by decide, by decide,
    by
      intro e he
      simp only [exMemAnswers, List.mem_cons, List.not_mem_nil, or_false] at he
      rcases he with rfl | rfl
      · exact Or.inl ⟨rfl, "hello", rfl, by decide⟩
      · exact Or.inr ⟨rfl, "opt-1", rfl, by decide⟩,
    fun k hk => absurd rfl hk,
    autosave_reload_round_trip "sess-1" 3 exMemAnswers exEmptyStore "q1"
      (by decide) (by decide)
      (by
        intro e he
        simp only [exMemAnswers, List.mem_cons, List.not_mem_nil, or_false] at he
        rcases he with rfl | rfl
        · exact Or.inl ⟨rfl, "hello", rfl, by decide⟩
        · exact Or.inr ⟨rfl, "opt-1", rfl, by decide⟩)
      (fun k hk => absurd rfl hk)⟩

end ExamPlatform
